import Mathlib

/-!
Shallow embedding of the data-shaping logic of
src/dashboard_Final_Script.py (a pandas/streamlit dashboard over a CSV of
plastic-pollution cleanup records), together with proofs settling the
frozen claims about its specification.

Modelling conventions:
* a dataframe row is a `Record`; numeric cells are exact rationals `ℚ`
  (the script treats the cells as abstract numbers: it only sums and compares);
* `parent_company` is `Option String` (pandas NaN is `none`);
* `df.sort_values (by := [country, year])` sorts on two keys, for which
  pandas ignores the `kind` argument and uses `numpy.lexsort`, a stable
  sort; a stable sort by a key is extensionally unique, so it is embedded
  as the stable insertion sort `sortBy` below;
* `groupby([country, year]).cumcount() == 0` marks, in sorted order, the
  first row of each `(country, year)` group (`tagTotals`);
* `groupby("parent_company")` drops rows whose key is NaN (pandas default
  `dropna=True`) and sorts the group keys ascending (`sort=True`);
* boolean-mask indexing (`totals[totals.year == y]`) is `List.filter`;
  `.sum()` over a column is `List.sum` of the mapped column.
-/

/-- One row of the source table: the 15 required columns. -/
structure Record where
  country : String
  year : Int
  parent_company : Option String
  empty : ℚ
  hdpe : ℚ
  ldpe : ℚ
  o : ℚ
  pet : ℚ
  pp : ℚ
  ps : ℚ
  pvc : ℚ
  grand_total : ℚ
  num_events : ℚ
  volunteers : ℚ
  grand_total_per_volunteer : ℚ
deriving DecidableEq, Repr

/-- The seven plastic-category columns used by the composition and trend
charts (`plastics_cols` in the script). -/
inductive PCat where
  | hdpe | ldpe | o | pet | pp | ps | pvc
deriving DecidableEq, Repr

/-- Column access for a plastic-category column. -/
def catVal (r : Record) : PCat → ℚ
  | .hdpe => r.hdpe
  | .ldpe => r.ldpe
  | .o => r.o
  | .pet => r.pet
  | .pp => r.pp
  | .ps => r.ps
  | .pvc => r.pvc

/-- `plastics_cols = ["hdpe","ldpe","o","pet","pp","ps","pvc"]`. -/
def plasticsCols : List PCat := [.hdpe, .ldpe, .o, .pet, .pp, .ps, .pvc]

/-- `recyclable = ["hdpe","ldpe","pet","pp"]`. -/
def recyclableCols : List PCat := [.hdpe, .ldpe, .pet, .pp]

/-- `non_recyclable = ["ps","pvc","o"]`. -/
def nonRecyclableCols : List PCat := [.ps, .pvc, .o]

/-- The grouping key `(country, year)`. -/
def rkey (r : Record) : String × Int := (r.country, r.year)

/-! ### A generic stable sort

`insertBy lt x l` inserts `x` before the first element of `l` that is not
strictly below `x`; `sortBy lt` is the induced insertion sort.  It is
stable: elements that `lt` cannot separate keep their original relative
order.  Any stable sort by the same key produces the same list, so this
faithfully embeds the stable lexsort used by pandas. -/

def insertBy (lt : α → α → Bool) (x : α) : List α → List α
  | [] => [x]
  | y :: ys => if lt y x then y :: insertBy lt x ys else x :: y :: ys

def sortBy (lt : α → α → Bool) : List α → List α
  | [] => []
  | x :: xs => insertBy lt x (sortBy lt xs)

/-! ### Schema check (script lines 36-43) -/

/-- The 15 required column names. -/
def requiredColumns : List String :=
  ["country", "year", "parent_company", "empty", "hdpe", "ldpe", "o", "pet",
   "pp", "ps", "pvc", "grand_total", "num_events", "volunteers",
   "grand_total_per_volunteer"]

/-- `missing = [c for c in required if c not in df.columns]`. -/
def missingColumns (cols : List String) : List String :=
  requiredColumns.filter (fun c => ¬ c ∈ cols)

/-! ### Row classifier (script lines 46-49) -/

/-- Code-point lexicographic order on strings: the order python and pandas
use to compare strings. -/
def strLt (a b : String) : Bool := decide (a.data < b.data)

/-- Strict lexicographic order on the sort key `(country, year)`:
`df.sort_values(["country", "year"])` ascending on both columns. -/
def keyLt (a b : Record) : Bool :=
  strLt a.country b.country ||
    (a.country == b.country && decide (a.year < b.year))

/-- The sorted table: `df.sort_values(["country","year"]).reset_index(drop=True)`
(stable, since pandas uses `numpy.lexsort` for a two-column sort). -/
def sortRecs (rows : List Record) : List Record :=
  sortBy keyLt rows

/-- Tag each row of the (sorted) table with
`groupby(["country","year"]).cumcount() == 0`: `true` exactly when no
earlier row carries the same `(country, year)` key.  `seen` is the set of
keys of the rows already passed. -/
def tagTotals (seen : List (String × Int)) : List Record → List (Record × Bool)
  | [] => []
  | r :: rs =>
      (r, if rkey r ∈ seen then false else true) :: tagTotals (rkey r :: seen) rs

/-- The classified table: `df` with its `is_total_row` column. -/
def classify (rows : List Record) : List (Record × Bool) :=
  tagTotals [] (sortRecs rows)

/-- `totals = df[df["is_total_row"]]`. -/
def totalsOf (rows : List Record) : List Record :=
  ((classify rows).filter (fun p => p.2)).map (fun p => p.1)

/-- `companies = df[~df["is_total_row"]]`. -/
def companiesOf (rows : List Record) : List Record :=
  ((classify rows).filter (fun p => !p.2)).map (fun p => p.1)

/-! ### Loading (lines 34-49): schema check, then classification;
on a schema error the script stops (`st.stop()`) before classifying. -/

def loadTable (cols : List String) (rows : List Record) :
    Except (List String) (List (Record × Bool)) :=
  match missingColumns cols with
  | [] => .ok (classify rows)
  | m :: ms => .error (m :: ms)

/-! ### Aggregator: sidebar-driven views (lines 68-78) -/

/-- Ascending comparison used to embed sorted integer group keys. -/
def intLt (a b : Int) : Bool := decide (a < b)

/-- The parent-company selector options (line 70-73):
`["All"] + sorted(companies["parent_company"].dropna().unique())`.
Note: built from ALL company rows, with no year filter. -/
def parentCompanyOptions (rows : List Record) : List String :=
  "All" :: sortBy strLt (((companiesOf rows).filterMap
    (fun r => r.parent_company)).dedup)

/-- `totals_y = totals[totals["year"] == year_selected]`. -/
def totalsY (rows : List Record) (y : Int) : List Record :=
  (totalsOf rows).filter (fun r => r.year == y)

/-- `total_row = totals_y[totals_y["country"] == country_selected]`. -/
def totalRowSel (rows : List Record) (c : String) (y : Int) : List Record :=
  (totalsY rows y).filter (fun r => r.country == c)

/-- `companies_y = companies[companies["year"] == year_selected]`. -/
def companiesY (rows : List Record) (y : Int) : List Record :=
  (companiesOf rows).filter (fun r => r.year == y)

/-- `companies_yc`: company rows of the selected year and country. -/
def companiesYC (rows : List Record) (c : String) (y : Int) : List Record :=
  (companiesOf rows).filter (fun r => r.year == y && r.country == c)

/-! ### KPI lookup (lines 85-97) -/

/-- The four KPI scalars of the matching total row, or `none`
(the script renders a warning, not an exception, when `total_row` is
empty). -/
def kpiLookup (rows : List Record) (c : String) (y : Int) :
    Option (ℚ × ℚ × ℚ × ℚ) :=
  match totalRowSel rows c y with
  | [] => none
  | r :: _ =>
      some (r.grand_total, r.volunteers, r.num_events,
        r.grand_total_per_volunteer)

/-! ### Composition (lines 152-162) -/

/-- `comp_for_comp`: the company rows feeding the composition chart. -/
def compForComp (rows : List Record) (c : String) (y : Int) (sel : String) :
    List Record :=
  if sel == "All" then companiesYC rows c y
  else (companiesYC rows c y).filter (fun r => r.parent_company == some sel)

/-- `comp_vals[cat] = comp_for_comp[plastics_cols].sum()[cat]`. -/
def composition (rows : List Record) (c : String) (y : Int) (sel : String)
    (cat : PCat) : ℚ :=
  ((compForComp rows c y sel).map (fun r => catVal r cat)).sum

/-- The distinct parent companies present among the company rows of the
`(country, year)` group. -/
def distinctCompanies (rows : List Record) (c : String) (y : Int) :
    List String :=
  ((companiesYC rows c y).filterMap (fun r => r.parent_company)).dedup

/-! ### Trends (lines 182-222) -/

/-- `comp_country_all_years = companies[companies["country"] == country]`. -/
def compCountryAllYears (rows : List Record) (c : String) : List Record :=
  (companiesOf rows).filter (fun r => r.country == c)

/-- The years of the trend: `groupby("year")` group keys, ascending. -/
def trendYears (rows : List Record) (c : String) : List Int :=
  sortBy intLt (((compCountryAllYears rows c).map (fun r => r.year)).dedup)

/-- Sum of one plastic-category column over the company
rows of one year (a cell of `trend` / `trend_types`). -/
def catYearSum (rows : List Record) (c : String) (y : Int) (cat : PCat) : ℚ :=
  (((compCountryAllYears rows c).filter (fun r => r.year == y)).map
    (fun r => catVal r cat)).sum

/-- `trend["Recyclable"]` for one year: `trend[recyclable].sum(axis=1)`. -/
def recyclableTotal (rows : List Record) (c : String) (y : Int) : ℚ :=
  (recyclableCols.map (fun cat => catYearSum rows c y cat)).sum

/-- `trend["Non-Recyclable"]` for one year. -/
def nonRecyclableTotal (rows : List Record) (c : String) (y : Int) : ℚ :=
  (nonRecyclableCols.map (fun cat => catYearSum rows c y cat)).sum

/-! ### Top-10 parent companies (lines 238-245) -/

/-- Descending-by-value comparison for `sort_values(ascending=False)` on
the summed ratio column. -/
def ratioDesc (a b : String × ℚ) : Bool := decide (b.2 < a.2)

/-- `companies_y.groupby("parent_company")["grand_total_per_volunteer"]
.sum()`: pandas drops NaN group keys and sorts the keys ascending. -/
def groupedRatios (rows : List Record) (y : Int) : List (String × ℚ) :=
  (sortBy strLt (((companiesY rows y).filterMap
      (fun r => r.parent_company)).dedup)).map
    (fun pc => (pc, (((companiesY rows y).filter
      (fun r => r.parent_company == some pc)).map
        (fun r => r.grand_total_per_volunteer)).sum))

/-- `top10 = grouped.sort_values(ascending=False).head(10)`. -/
def top10 (rows : List Record) (y : Int) : List (String × ℚ) :=
  (sortBy ratioDesc (groupedRatios rows y)).take 10

/-! ### Session model for the frame/effect claim

The script binds `df` (classified), `totals` and `companies` once at load
time.  The only later column assignment is
`totals_y["custom_hover"] = list(zip(...))` (lines 110-118), which writes
to `totals_y` — a fresh dataframe produced by boolean-mask indexing, i.e. a
copy — so it is modelled as a state field separate from the classified
table.  Each chart section is an operation reading the state. -/

/-- The per-session state: the classified table, its two projections, and
the hover column written onto the `totals_y` copy by the map section. -/
structure SessionState where
  df : List (Record × Bool)
  totalsV : List Record
  companiesV : List Record
  hover : List (String × Int × ℚ × ℚ × ℚ)
deriving DecidableEq

/-- Session state right after load and classification. -/
def initState (rows : List Record) : SessionState :=
  { df := classify rows
    totalsV := totalsOf rows
    companiesV := companiesOf rows
    hover := [] }

/-- One query operation, with its filter selection baked in. -/
inductive QueryOp where
  | kpi (c : String) (y : Int)
  | comp (c : String) (y : Int) (sel : String) (cat : PCat)
  | trendRN (c : String) (y : Int)
  | trendCat (c : String) (y : Int) (cat : PCat)
  | topN (y : Int)
  | mapHover (y : Int)
deriving DecidableEq, Repr

/-- The plain-data result of one operation. -/
inductive OpResult where
  | kpiR : Option (ℚ × ℚ × ℚ × ℚ) → OpResult
  | valR : ℚ → OpResult
  | pairR : ℚ × ℚ → OpResult
  | rankR : List (String × ℚ) → OpResult
  | hoverR : List (String × Int × ℚ × ℚ × ℚ) → OpResult
deriving DecidableEq

/-- `totals_y` recomputed from a totals view, as the map section does. -/
def totalsYOfView (t : List Record) (y : Int) : List Record :=
  t.filter (fun r => r.year == y)

/-- The `custom_hover` column: `zip(country, year, grand_total,
volunteers, grand_total_per_volunteer)` over `totals_y`. -/
def mkHover (t : List Record) (y : Int) :
    List (String × Int × ℚ × ℚ × ℚ) :=
  (totalsYOfView t y).map (fun r =>
    (r.country, r.year, r.grand_total, r.volunteers,
      r.grand_total_per_volunteer))

/-- KPI lookup reading a totals view (lines 75-76, 85-97). -/
def kpiFromView (t : List Record) (c : String) (y : Int) :
    Option (ℚ × ℚ × ℚ × ℚ) :=
  match (t.filter (fun r => r.year == y)).filter (fun r => r.country == c) with
  | [] => none
  | r :: _ =>
      some (r.grand_total, r.volunteers, r.num_events,
        r.grand_total_per_volunteer)

/-- Composition sum reading a companies view (lines 152-162). -/
def compFromView (cv : List Record) (c : String) (y : Int) (sel : String)
    (cat : PCat) : ℚ :=
  let yc := cv.filter (fun r => r.year == y && r.country == c)
  let sub := if sel == "All" then yc
    else yc.filter (fun r => r.parent_company == some sel)
  (sub.map (fun r => catVal r cat)).sum

/-- The recyclable/non-recyclable pair of one year, read from a companies view
(lines 182-195). -/
def trendRNFromView (cv : List Record) (c : String) (y : Int) : ℚ × ℚ :=
  let cy := (cv.filter (fun r => r.country == c)).filter (fun r => r.year == y)
  ((recyclableCols.map (fun cat => (cy.map (fun r => catVal r cat)).sum)).sum,
   (nonRecyclableCols.map (fun cat => (cy.map (fun r => catVal r cat)).sum)).sum)

/-- The single-category sum of one year, read from a companies view
(lines 216-222). -/
def trendCatFromView (cv : List Record) (c : String) (y : Int)
    (cat : PCat) : ℚ :=
  (((cv.filter (fun r => r.country == c)).filter (fun r => r.year == y)).map
    (fun r => catVal r cat)).sum

/-- Top-10 ranking read from a companies view (lines 238-245). -/
def top10FromView (cv : List Record) (y : Int) : List (String × ℚ) :=
  let cy := cv.filter (fun r => r.year == y)
  (sortBy ratioDesc ((sortBy strLt ((cy.filterMap
      (fun r => r.parent_company)).dedup)).map
    (fun pc => (pc, ((cy.filter (fun r => r.parent_company == some pc)).map
      (fun r => r.grand_total_per_volunteer)).sum)))).take 10

/-- Run one operation against the session state.  Only the map section
writes: it stores the freshly zipped hover column (on the `totals_y`
copy); no operation touches `df`, `totalsV` or `companiesV`. -/
def applyOp (st : SessionState) : QueryOp → OpResult × SessionState
  | .kpi c y => (.kpiR (kpiFromView st.totalsV c y), st)
  | .comp c y sel cat => (.valR (compFromView st.companiesV c y sel cat), st)
  | .trendRN c y => (.pairR (trendRNFromView st.companiesV c y), st)
  | .trendCat c y cat => (.valR (trendCatFromView st.companiesV c y cat), st)
  | .topN y => (.rankR (top10FromView st.companiesV y), st)
  | .mapHover y =>
      (.hoverR (mkHover st.totalsV y), { st with hover := mkHover st.totalsV y })

/-- Run a sequence of operations, threading the state. -/
def runOps (st : SessionState) : List QueryOp → List OpResult × SessionState
  | [] => ([], st)
  | op :: rest =>
      let r := applyOp st op
      let rs := runOps r.2 rest
      (r.1 :: rs.1, rs.2)

/-- The result each operation would produce as a pure function of the
classified views alone. -/
def pureResult (t cv : List Record) : QueryOp → OpResult
  | .kpi c y => .kpiR (kpiFromView t c y)
  | .comp c y sel cat => .valR (compFromView cv c y sel cat)
  | .trendRN c y => .pairR (trendRNFromView cv c y)
  | .trendCat c y cat => .valR (trendCatFromView cv c y cat)
  | .topN y => .rankR (top10FromView cv y)
  | .mapHover y => .hoverR (mkHover t y)

/-- Boolean test for membership in the `(country, year)` group, as the
masks `df["country"] == c` and `df["year"] == y` conjoined. -/
def keyIs (c : String) (y : Int) (r : Record) : Bool :=
  r.country == c && r.year == y

/-! ### Concrete tables used in witnesses and counterexamples -/

/-- A row with every cell zeroed, to build concrete tables from. -/
def baseRow : Record :=
  { country := "", year := 0, parent_company := none, empty := 0, hdpe := 0,
    ldpe := 0, o := 0, pet := 0, pp := 0, ps := 0, pvc := 0, grand_total := 0,
    num_events := 0, volunteers := 0, grand_total_per_volunteer := 0 }

/-- The column list of the spec scenario: all required columns except
`pvc`. -/
def colsScenario : List String := requiredColumns.erase "pvc"

/-- The aggregate row of the singleton group `("B", 2020)` below. -/
def sampleTotalB : Record :=
  { baseRow with
      country := "B", year := 2020, grand_total := 7, num_events := 1,
      volunteers := 2, grand_total_per_volunteer := 3 }

/-- A small sample table: group `("A", 2019)` with a leading aggregate row
and two company rows, and a singleton group `("B", 2020)`. -/
def sampleRows : List Record :=
  [{ baseRow with
      country := "A", year := 2019, grand_total := 9, num_events := 2,
      volunteers := 3, grand_total_per_volunteer := 3 },
   { baseRow with
      country := "A", year := 2019, parent_company := some "X", hdpe := 5,
      grand_total := 5, grand_total_per_volunteer := 4 },
   { baseRow with
      country := "A", year := 2019, parent_company := some "Z", ldpe := 4,
      grand_total := 4, grand_total_per_volunteer := 1 },
   sampleTotalB]

/-- A table whose `("A", 2019)` group has a company row with a null
`parent_company` and positive `hdpe`. -/
def rowsC5 : List Record :=
  [{ baseRow with
      country := "A", year := 2019, grand_total := 5, volunteers := 1,
      grand_total_per_volunteer := 5 },
   { baseRow with
      country := "A", year := 2019, parent_company := none, hdpe := 5,
      grand_total := 5 },
   { baseRow with
      country := "A", year := 2019, parent_company := some "X",
      grand_total := 0 }]

/-- A table whose `("A", 2019)` group has a company row literally named
`"All"`, shadowing the sentinel. -/
def rowsC5b : List Record :=
  [{ baseRow with
      country := "A", year := 2019, grand_total := 5, volunteers := 1,
      grand_total_per_volunteer := 5 },
   { baseRow with
      country := "A", year := 2019, parent_company := some "All",
      grand_total := 0 },
   { baseRow with
      country := "A", year := 2019, parent_company := some "B", hdpe := 5,
      grand_total := 5 }]

/-- A table where company `"X"` reports only in year 2019 and company
`"Y"` only in year 2020. -/
def rowsC8 : List Record :=
  [{ baseRow with
      country := "A", year := 2019, grand_total := 3, volunteers := 1,
      grand_total_per_volunteer := 3 },
   { baseRow with
      country := "A", year := 2019, parent_company := some "X",
      grand_total := 3, grand_total_per_volunteer := 3 },
   { baseRow with
      country := "A", year := 2020, grand_total := 2, volunteers := 1,
      grand_total_per_volunteer := 2 },
   { baseRow with
      country := "A", year := 2020, parent_company := some "Y",
      grand_total := 2, grand_total_per_volunteer := 2 }]

/-! ### Generic lemmas about `insertBy` / `sortBy` -/

theorem mem_insertBy {α : Type} (lt : α → α → Bool) (x a : α) (l : List α) :
    a ∈ insertBy lt x l ↔ a = x ∨ a ∈ l := by
  induction l with
  | nil => simp [insertBy]
  | cons y ys ih =>
    by_cases h : lt y x
    · simp only [insertBy, if_pos h, List.mem_cons, ih]
      tauto
    · simp only [insertBy, if_neg h, List.mem_cons]

theorem length_insertBy {α : Type} (lt : α → α → Bool) (x : α) (l : List α) :
    (insertBy lt x l).length = l.length + 1 := by
  induction l with
  | nil => simp [insertBy]
  | cons y ys ih =>
    by_cases h : lt y x
    · simp [insertBy, if_pos h, ih]
    · simp [insertBy, if_neg h]

theorem mem_sortBy {α : Type} (lt : α → α → Bool) (a : α) (l : List α) :
    a ∈ sortBy lt l ↔ a ∈ l := by
  induction l with
  | nil => simp [sortBy]
  | cons y ys ih => simp [sortBy, mem_insertBy, ih]

theorem length_sortBy {α : Type} (lt : α → α → Bool) (l : List α) :
    (sortBy lt l).length = l.length := by
  induction l with
  | nil => simp [sortBy]
  | cons y ys ih => simp [sortBy, length_insertBy, ih]

theorem filter_insertBy_pos {α : Type} (lt : α → α → Bool) (p : α → Bool)
    (x : α) (l : List α) (hx : p x = true)
    (hlt : ∀ a, p a = true → lt a x = false) :
    (insertBy lt x l).filter p = x :: l.filter p := by
  induction l with
  | nil => simp [insertBy, hx]
  | cons y ys ih =>
    by_cases h : lt y x
    · have hy : p y = false := by
        cases hpy : p y with
        | false => rfl
        | true => rw [hlt y hpy] at h; exact absurd h (by simp)
      simp only [insertBy, if_pos h, List.filter_cons, hy]
      simpa using ih
    · simp [insertBy, if_neg h, List.filter_cons, hx]

theorem filter_insertBy_neg {α : Type} (lt : α → α → Bool) (p : α → Bool)
    (x : α) (l : List α) (hx : p x = false) :
    (insertBy lt x l).filter p = l.filter p := by
  induction l with
  | nil => simp [insertBy, hx]
  | cons y ys ih =>
    by_cases h : lt y x
    · simp only [insertBy, if_pos h, List.filter_cons]
      rw [ih]
    · simp [insertBy, if_neg h, List.filter_cons, hx]

theorem filter_sortBy {α : Type} (lt : α → α → Bool) (p : α → Bool)
    (l : List α) (hp : ∀ a b, p a = true → p b = true → lt a b = false) :
    (sortBy lt l).filter p = l.filter p := by
  induction l with
  | nil => simp [sortBy]
  | cons y ys ih =>
    cases hy : p y with
    | true =>
      rw [sortBy, filter_insertBy_pos lt p y (sortBy lt ys) hy
        (fun a ha => hp a y ha hy), ih, List.filter_cons, hy]
      simp
    | false =>
      rw [sortBy, filter_insertBy_neg lt p y (sortBy lt ys) hy, ih,
        List.filter_cons, hy]
      simp

theorem pairwise_insertBy {α : Type} (lt : α → α → Bool)
    (hasym : ∀ a b, lt a b = true → lt b a = false)
    (htrans : ∀ a b c, lt b a = false → lt c b = false → lt c a = false)
    (x : α) (l : List α) (hl : l.Pairwise (fun a b => lt b a = false)) :
    (insertBy lt x l).Pairwise (fun a b => lt b a = false) := by
  induction l with
  | nil => simp [insertBy]
  | cons y ys ih =>
    rw [List.pairwise_cons] at hl
    by_cases h : lt y x
    · rw [insertBy, if_pos h, List.pairwise_cons]
      refine ⟨fun z hz => ?_, ih hl.2⟩
      rcases (mem_insertBy lt x z ys).mp hz with rfl | hz
      · exact hasym y z h
      · exact hl.1 z hz
    · rw [insertBy, if_neg h, List.pairwise_cons]
      refine ⟨fun z hz => ?_, List.pairwise_cons.mpr hl⟩
      have h' : lt y x = false := by
        cases hyx : lt y x with
        | false => rfl
        | true => exact absurd hyx h
      rcases List.mem_cons.mp hz with rfl | hz
      · exact h'
      · exact htrans x y z h' (hl.1 z hz)

theorem pairwise_sortBy {α : Type} (lt : α → α → Bool)
    (hasym : ∀ a b, lt a b = true → lt b a = false)
    (htrans : ∀ a b c, lt b a = false → lt c b = false → lt c a = false)
    (l : List α) : (sortBy lt l).Pairwise (fun a b => lt b a = false) := by
  induction l with
  | nil => simp [sortBy]
  | cons y ys ih => exact pairwise_insertBy lt hasym htrans y (sortBy lt ys) ih

/-! ### Lemmas about the row classifier -/

theorem strLt_self (s : String) : strLt s s = false :=
  decide_eq_false (gt_irrefl s.data)

theorem keyLt_of_eq_keys (a b : Record) (h1 : a.country = b.country)
    (h2 : a.year = b.year) : keyLt a b = false := by
  rw [keyLt, h1, h2, strLt_self]
  simp

theorem keyIs_true_iff (c : String) (y : Int) (r : Record) :
    keyIs c y r = true ↔ rkey r = (c, y) := by
  simp [keyIs, rkey, Prod.ext_iff]

theorem keyLt_of_keyIs (c : String) (y : Int) (a b : Record)
    (ha : keyIs c y a = true) (hb : keyIs c y b = true) :
    keyLt a b = false := by
  simp only [keyIs, Bool.and_eq_true, beq_iff_eq] at ha hb
  exact keyLt_of_eq_keys a b (ha.1.trans hb.1.symm) (ha.2.trans hb.2.symm)

theorem tagTotals_map_fst (seen : List (String × Int)) (l : List Record) :
    (tagTotals seen l).map (fun p => p.1) = l := by
  induction l generalizing seen with
  | nil => rfl
  | cons r rs ih => simp [tagTotals, ih]

theorem tagTotals_filter_fst_length (q : Record → Bool)
    (seen : List (String × Int)) (l : List Record) :
    ((tagTotals seen l).filter (fun p => q p.1)).length
      = (l.filter q).length := by
  induction l generalizing seen with
  | nil => rfl
  | cons r rs ih =>
    simp only [tagTotals, List.filter_cons]
    cases hq : q r with
    | true => simp [hq, ih]
    | false => simp [hq, ih]

theorem tagTotals_total_group (c : String) (y : Int)
    (seen : List (String × Int)) (l : List Record) :
    ((tagTotals seen l).filter (fun p => keyIs c y p.1 && p.2)).map
        (fun p => p.1)
      = if (c, y) ∈ seen then [] else (l.filter (keyIs c y)).take 1 := by
  induction l generalizing seen with
  | nil => simp [tagTotals]
  | cons r rs ih =>
    simp only [tagTotals, List.filter_cons]
    cases hk : keyIs c y r with
    | true =>
      have hrk : rkey r = (c, y) := (keyIs_true_iff c y r).mp hk
      by_cases hs : (c, y) ∈ seen
      · have : rkey r ∈ seen := by rw [hrk]; exact hs
        simp only [if_pos this, hk, Bool.and_false, Bool.false_eq_true,
          not_false_eq_true, if_neg]
        rw [ih]
        have : (c, y) ∈ rkey r :: seen := List.mem_cons_of_mem _ hs
        simp [this, hs]
      · have : ¬ rkey r ∈ seen := by rw [hrk]; exact hs
        simp only [if_neg this, hk, Bool.and_true, if_pos]
        rw [List.map_cons, ih]
        have : (c, y) ∈ rkey r :: seen := by rw [hrk]; exact List.mem_cons_self _ _
        simp [this, hs]
    | false =>
      simp only [hk, Bool.false_and, Bool.false_eq_true, not_false_eq_true,
        if_neg]
      rw [ih]
      have hne : ¬ (c, y) = rkey r := by
        intro h
        rw [(keyIs_true_iff c y r).mpr h.symm] at hk
        simp at hk
      by_cases hs : (c, y) ∈ seen
      · have : (c, y) ∈ rkey r :: seen := List.mem_cons_of_mem _ hs
        simp [this, hs]
      · have : ¬ (c, y) ∈ rkey r :: seen := by
          intro h
          rcases List.mem_cons.mp h with h | h
          · exact hne h
          · exact hs h
        simp [this, hs]

theorem filter_sortRecs (c : String) (y : Int) (rows : List Record) :
    (sortRecs rows).filter (keyIs c y) = rows.filter (keyIs c y) :=
  filter_sortBy keyLt (keyIs c y) rows (keyLt_of_keyIs c y)

theorem classify_total_group (rows : List Record) (c : String) (y : Int) :
    ((classify rows).filter (fun p => keyIs c y p.1 && p.2)).map
        (fun p => p.1)
      = (rows.filter (keyIs c y)).take 1 := by
  rw [classify, tagTotals_total_group]
  simp only [List.not_mem_nil, if_false]
  rw [filter_sortRecs]

theorem classify_group_length (rows : List Record) (c : String) (y : Int) :
    ((classify rows).filter (fun p => keyIs c y p.1)).length
      = (rows.filter (keyIs c y)).length := by
  rw [classify, tagTotals_filter_fst_length, filter_sortRecs]

theorem length_filter_and_not {α : Type} (q r : α → Bool) (l : List α) :
    (l.filter (fun a => q a && r a)).length
      + (l.filter (fun a => q a && !r a)).length
      = (l.filter q).length := by
  induction l with
  | nil => rfl
  | cons x xs ih =>
    simp only [List.filter_cons]
    cases hq : q x <;> cases hr : r x <;> simp [hq, hr] <;> omega

theorem map_fst_filter_bool (q : Record → Bool) (l : List (Record × Bool)) :
    ((l.filter (fun p => p.2)).map (fun p => p.1)).filter q
      = (l.filter (fun p => q p.1 && p.2)).map (fun p => p.1) := by
  induction l with
  | nil => rfl
  | cons p ps ih =>
    cases hp2 : p.2 with
    | false => simp [List.filter_cons, hp2, ih]
    | true =>
      cases hq : q p.1 with
      | false => simp [List.filter_cons, hp2, hq, ih]
      | true => simp [List.filter_cons, hp2, hq, ih]

theorem totalRowSel_eq (rows : List Record) (c : String) (y : Int) :
    totalRowSel rows c y = (rows.filter (keyIs c y)).take 1 := by
  rw [totalRowSel, totalsY, totalsOf, List.filter_filter, map_fst_filter_bool,
    ← classify_total_group rows c y]
  have hpred : (fun (p : Record × Bool) =>
      (p.1.country == c && p.1.year == y) && p.2)
      = (fun (p : Record × Bool) => keyIs c y p.1 && p.2) := by
    funext p
    simp only [keyIs]
  rw [hpred]

/-! ### Sum lemmas for the composition and trend claims -/

theorem sum_map_add {α : Type} (l : List α) (f g : α → ℚ) :
    (l.map (fun a => f a + g a)).sum = (l.map f).sum + (l.map g).sum := by
  induction l with
  | nil => simp
  | cons x xs ih =>
    simp only [List.map_cons, List.sum_cons, ih]
    ring

theorem sum_map_ite_eq (ks : List String) (k0 : String) (a : ℚ)
    (hnd : ks.Nodup) (hm : k0 ∈ ks) :
    (ks.map (fun k => if k = k0 then a else 0)).sum = a := by
  induction ks with
  | nil => cases hm
  | cons k ks ih =>
    rw [List.nodup_cons] at hnd
    by_cases h : k = k0
    · subst h
      simp only [List.map_cons, List.sum_cons]
      have hz : (ks.map (fun x => if x = k then a else 0)).sum = 0 := by
        apply List.sum_eq_zero
        intro v hv
        rcases List.mem_map.mp hv with ⟨x, hx, rfl⟩
        exact if_neg (fun hh : x = k => hnd.1 (hh ▸ hx))
      rw [hz, add_zero]
      simp
    · have hm2 : k0 ∈ ks := by
        rcases List.mem_cons.mp hm with hh | hh
        · exact absurd hh.symm h
        · exact hh
      simp only [List.map_cons, List.sum_cons, if_neg h]
      rw [ih hnd.2 hm2, zero_add]

theorem sum_partition (l : List Record) (ks : List String) (f : Record → ℚ)
    (hnd : ks.Nodup)
    (hcov : ∀ r ∈ l, ∃ k, r.parent_company = some k ∧ k ∈ ks) :
    (ks.map (fun k =>
        ((l.filter (fun r => r.parent_company == some k)).map f).sum)).sum
      = (l.map f).sum := by
  induction l with
  | nil => simp
  | cons r rs ih =>
    obtain ⟨k0, hk0, hk0m⟩ := hcov r (List.mem_cons_self r rs)
    have step : ∀ k,
        (((r :: rs).filter (fun r' => r'.parent_company == some k)).map f).sum
          = (if k = k0 then f r else 0)
            + ((rs.filter (fun r' => r'.parent_company == some k)).map f).sum := by
      intro k
      rw [List.filter_cons]
      by_cases h : k = k0
      · subst h
        rw [hk0]
        simp
      · have hne : (r.parent_company == some k) = false := by
          rw [hk0]
          simp
          exact fun hh => h hh.symm
        simp [hne, h]
    calc (ks.map (fun k =>
            (((r :: rs).filter
              (fun r' => r'.parent_company == some k)).map f).sum)).sum
        = (ks.map (fun k => (if k = k0 then f r else 0)
            + ((rs.filter (fun r' => r'.parent_company == some k)).map f).sum)).sum := by
          exact congrArg List.sum (List.map_congr_left (fun k _ => step k))
      _ = (ks.map (fun k => if k = k0 then f r else 0)).sum
            + (ks.map (fun k =>
                ((rs.filter (fun r' => r'.parent_company == some k)).map f).sum)).sum :=
          sum_map_add ks _ _
      _ = f r + (rs.map f).sum := by
          rw [sum_map_ite_eq ks k0 (f r) hnd hk0m,
            ih (fun r' hr' => hcov r' (List.mem_cons_of_mem r hr'))]
      _ = ((r :: rs).map f).sum := by simp

/-! ### Claim theorems -/

/-- C1: for every `(country, year)` group containing at least one record,
the classifier tags exactly one record in that group as the total row, and
every other record of the group is a company row (its tag is false, so it
lands in `companies`). -/
theorem c1_unique_total_row (rows : List Record) (c : String) (y : Int)
    (hne : rows.filter (keyIs c y) ≠ []) :
    ((classify rows).filter (fun p => keyIs c y p.1 && p.2)).length = 1 ∧
    ((classify rows).filter (fun p => keyIs c y p.1 && !p.2)).length
      = ((classify rows).filter (fun p => keyIs c y p.1)).length - 1 := by
  have h1 : ((classify rows).filter
      (fun p => keyIs c y p.1 && p.2)).length = 1 := by
    have hlen := congrArg List.length (classify_total_group rows c y)
    rw [List.length_map] at hlen
    rw [hlen]
    cases hl : rows.filter (keyIs c y) with
    | nil => exact absurd hl hne
    | cons a as => simp
  refine ⟨h1, ?_⟩
  have h2 := length_filter_and_not (fun p => keyIs c y p.1)
    (fun p => p.2) (classify rows)
  omega

/-- C1 witness: in the sample table the group `("A", 2019)` is nonempty,
has exactly one total row and two company rows. -/
theorem c1_unique_total_row_witness :
    sampleRows.filter (keyIs "A" 2019) ≠ [] ∧
    (((classify sampleRows).filter
        (fun p => keyIs "A" 2019 p.1 && p.2)).length = 1 ∧
      ((classify sampleRows).filter
          (fun p => keyIs "A" 2019 p.1 && !p.2)).length
        = ((classify sampleRows).filter
            (fun p => keyIs "A" 2019 p.1)).length - 1) :=
  ⟨by decide, c1_unique_total_row sampleRows "A" 2019 (by decide)⟩

/-- C2: the table is sorted by `(country, year)` with a stable sort, so
within each group the record tagged as the total row is exactly the
earliest record of that group in the load order of the input table. -/
theorem c2_total_row_is_first_loaded (rows : List Record) (c : String)
    (y : Int) :
    ((classify rows).filter (fun p => keyIs c y p.1 && p.2)).map
        (fun p => p.1)
      = (rows.filter (keyIs c y)).take 1 :=
  classify_total_group rows c y

/-- C3: loading fails with a schema error naming exactly the missing
required columns if and only if some required column is absent; on that
error no classified table is produced. -/
theorem c3_schema_error_iff_missing_columns (cols : List String)
    (rows : List Record) :
    ((∃ e, loadTable cols rows = .error e)
        ↔ ∃ col ∈ requiredColumns, ¬ col ∈ cols) ∧
    (∀ e, loadTable cols rows = .error e →
      e = missingColumns cols ∧ e ≠ [] ∧
        ∀ t, loadTable cols rows ≠ .ok t) := by
  constructor
  · constructor
    · rintro ⟨e, he⟩
      simp only [loadTable] at he
      cases h : missingColumns cols with
      | nil => rw [h] at he; exact absurd he (by simp)
      | cons m ms =>
        have hm : m ∈ missingColumns cols := by
          rw [h]; exact List.mem_cons_self m ms
        have hmf := List.mem_filter.mp hm
        exact ⟨m, hmf.1, by simpa using hmf.2⟩
    · rintro ⟨col, hcr, hcn⟩
      have hm : col ∈ missingColumns cols :=
        List.mem_filter.mpr ⟨hcr, by simpa using hcn⟩
      cases h : missingColumns cols with
      | nil => rw [h] at hm; cases hm
      | cons m ms =>
        refine ⟨m :: ms, ?_⟩
        simp only [loadTable]
        rw [h]
  · intro e he
    simp only [loadTable] at he
    cases h : missingColumns cols with
    | nil =>
      rw [h] at he
      exact absurd he (by simp)
    | cons m ms =>
      rw [h] at he
      simp only [Except.error.injEq] at he
      refine ⟨he.symm, by rw [← he]; simp, ?_⟩
      intro t
      simp only [loadTable]
      rw [h]
      simp

/-- C3 witness: dropping `pvc` from the column list makes loading fail
with a schema error naming exactly `["pvc"]`, and no classified table is
produced. -/
theorem c3_schema_error_witness :
    loadTable colsScenario ([] : List Record) = .error ["pvc"] ∧
    (["pvc"] = missingColumns colsScenario ∧ ["pvc"] ≠ ([] : List String) ∧
      ∀ t, loadTable colsScenario ([] : List Record) ≠ .ok t) :=
  ⟨by rfl,
    (c3_schema_error_iff_missing_columns colsScenario []).2 ["pvc"]
      (by rfl)⟩

/-- C4: for every selection, if a total row with the selected country and
year exists then the KPI lookup returns exactly the four scalar
fields, and if none exists it returns the non-fatal absent-data signal
`none`. -/
theorem c4_kpi_lookup_total_or_absent (rows : List Record) (c : String)
    (y : Int) :
    (∀ r, r ∈ totalsOf rows → r.country = c → r.year = y →
      kpiLookup rows c y = some (r.grand_total, r.volunteers, r.num_events,
        r.grand_total_per_volunteer)) ∧
    ((∀ r, r ∈ totalsOf rows → ¬ (r.country = c ∧ r.year = y)) →
      kpiLookup rows c y = none) := by
  constructor
  · intro r hr hc hy
    have hmem : r ∈ totalRowSel rows c y := by
      rw [totalRowSel, totalsY]
      exact List.mem_filter.mpr
        ⟨List.mem_filter.mpr ⟨hr, by simp [hy]⟩, by simp [hc]⟩
    have hlen : (totalRowSel rows c y).length ≤ 1 := by
      rw [totalRowSel_eq]
      exact List.length_take_le 1 _
    cases ht : totalRowSel rows c y with
    | nil => rw [ht] at hmem; cases hmem
    | cons a as =>
      rw [ht] at hmem hlen
      have has : as = [] := by
        cases as with
        | nil => rfl
        | cons b bs => simp at hlen
      subst has
      have hra : r = a := by
        rcases List.mem_cons.mp hmem with h | h
        · exact h
        · cases h
      rw [kpiLookup, ht, hra]
  · intro h
    have ht : totalRowSel rows c y = [] := by
      cases ht : totalRowSel rows c y with
      | nil => rfl
      | cons a as =>
        have ha : a ∈ totalRowSel rows c y := by
          rw [ht]; exact List.mem_cons_self a as
        rw [totalRowSel, totalsY] at ha
        have h1 := List.mem_filter.mp ha
        have h2 := List.mem_filter.mp h1.1
        exact absurd ⟨by simpa using h1.2, by simpa using h2.2⟩ (h a h2.1)
    rw [kpiLookup, ht]

/-- C4 witness: the total row of `("B", 2020)` is found and its scalars
are returned. -/
theorem c4_kpi_lookup_witness :
    (sampleTotalB ∈ totalsOf sampleRows ∧ sampleTotalB.country = "B" ∧
      sampleTotalB.year = 2020) ∧
    kpiLookup sampleRows "B" 2020 = some (7, 2, 1, 3) := by
  refine ⟨⟨by decide, by decide, by decide⟩, ?_⟩
  have h := (c4_kpi_lookup_total_or_absent sampleRows "B" 2020).1
    sampleTotalB (by decide) (by decide) (by decide)
  rw [h]
  decide

/-- C5 counterexample: in `rowsC5` the group `("A", 2019)` has a company
row with a null `parent_company` and `hdpe = 5`; the "All" composition
counts it but no per-company composition does.  In `rowsC5b` a company is
literally named `"All"`, so its per-company composition returns the whole
unfiltered sum.  In both tables the claimed equality fails (for the
`hdpe` category). -/
theorem c5_composition_partition_cex :
    (composition rowsC5 "A" 2019 "All" PCat.hdpe
      ≠ ((distinctCompanies rowsC5 "A" 2019).map
          (fun pc => composition rowsC5 "A" 2019 pc PCat.hdpe)).sum) ∧
    (composition rowsC5b "A" 2019 "All" PCat.hdpe
      ≠ ((distinctCompanies rowsC5b "A" 2019).map
          (fun pc => composition rowsC5b "A" 2019 pc PCat.hdpe)).sum) := by
  constructor
  · simp [composition, compForComp, companiesYC, companiesOf, classify,
      sortRecs, sortBy, insertBy, tagTotals, keyLt, strLt, rkey, catVal,
      distinctCompanies, List.dedup, rowsC5, baseRow]
  · simp [composition, compForComp, companiesYC, companiesOf, classify,
      sortRecs, sortBy, insertBy, tagTotals, keyLt, strLt, rkey, catVal,
      distinctCompanies, List.dedup, rowsC5b, baseRow]

/-- C5 (amended): if every company row of the `(country, year)` group has
a non-null `parent_company` different from the sentinel `"All"`, then the
composition computed with `parent_company = "All"` equals, category by
category, the pointwise sum of the compositions of each distinct parent
company of that group. -/
theorem c5_composition_partition (rows : List Record) (c : String) (y : Int)
    (h : ∀ r ∈ companiesYC rows c y,
      ∃ pc, r.parent_company = some pc ∧ pc ≠ "All") (cat : PCat) :
    composition rows c y "All" cat
      = ((distinctCompanies rows c y).map
          (fun pc => composition rows c y pc cat)).sum := by
  have hAll : composition rows c y "All" cat
      = ((companiesYC rows c y).map (fun r => catVal r cat)).sum := by
    rw [composition, compForComp]
    simp
  have hcomp : ∀ pc ∈ distinctCompanies rows c y,
      composition rows c y pc cat
        = (((companiesYC rows c y).filter
            (fun r => r.parent_company == some pc)).map
            (fun r => catVal r cat)).sum := by
    intro pc hpc
    have hpc2 := List.mem_dedup.mp hpc
    rcases List.mem_filterMap.mp hpc2 with ⟨r, hr, hrp⟩
    rcases h r hr with ⟨pc2, hrp2, hne2⟩
    rw [hrp] at hrp2
    have hne : pc ≠ "All" := by
      rw [Option.some.injEq] at hrp2
      rw [hrp2]
      exact hne2
    rw [composition, compForComp, if_neg (by simpa using hne)]
  rw [hAll, List.map_congr_left hcomp]
  exact (sum_partition (companiesYC rows c y) (distinctCompanies rows c y)
    (fun r => catVal r cat) (List.nodup_dedup _)
    (fun r hr => by
      rcases h r hr with ⟨pc, hrp, _⟩
      exact ⟨pc, hrp, List.mem_dedup.mpr
        (List.mem_filterMap.mpr ⟨r, hr, hrp⟩)⟩)).symm

/-- C5 witness: in the sample table every company row of `("A", 2019)`
names a parent company, and the "All" composition splits as the sum of
the per-company compositions. -/
theorem c5_composition_partition_witness :
    (∀ r ∈ companiesYC sampleRows "A" 2019,
      ∃ pc, r.parent_company = some pc ∧ pc ≠ "All") ∧
    composition sampleRows "A" 2019 "All" PCat.hdpe
      = ((distinctCompanies sampleRows "A" 2019).map
          (fun pc => composition sampleRows "A" 2019 pc PCat.hdpe)).sum :=
  ⟨by decide, c5_composition_partition sampleRows "A" 2019 (by decide)
    PCat.hdpe⟩

/-- C6: for every selected country and every year of its trend, the
recyclable total plus the non-recyclable total equals the sum of the 7
per-category sums of the per-category trend for that year. -/
theorem c6_trend_totals_agree (rows : List Record) (c : String) (y : Int)
    (_hy : y ∈ trendYears rows c) :
    recyclableTotal rows c y + nonRecyclableTotal rows c y
      = (plasticsCols.map (fun cat => catYearSum rows c y cat)).sum := by
  simp only [recyclableTotal, nonRecyclableTotal, recyclableCols,
    nonRecyclableCols, plasticsCols, List.map_cons, List.map_nil,
    List.sum_cons, List.sum_nil]
  ring

/-- C6 witness: year 2019 appears in the trend of country "A" of the
sample table, and the two trend totals agree there. -/
theorem c6_trend_totals_agree_witness :
    (2019 : Int) ∈ trendYears sampleRows "A" ∧
    recyclableTotal sampleRows "A" 2019
        + nonRecyclableTotal sampleRows "A" 2019
      = (plasticsCols.map
          (fun cat => catYearSum sampleRows "A" 2019 cat)).sum :=
  ⟨by decide, c6_trend_totals_agree sampleRows "A" 2019 (by decide)⟩

/-- C7: the top-10 ranking has at most 10 entries, never more than the
number of distinct (non-null) parent companies among the company rows of
the selected year, and is sorted descending by the summed ratio. -/
theorem c7_top10_shape (rows : List Record) (y : Int) :
    (top10 rows y).length ≤ 10 ∧
    (top10 rows y).length
      ≤ (((companiesY rows y).filterMap
          (fun r => r.parent_company)).dedup).length ∧
    (top10 rows y).Pairwise (fun a b => b.2 ≤ a.2) := by
  refine ⟨?_, ?_, ?_⟩
  · rw [top10]
    exact List.length_take_le 10 _
  · rw [top10, List.length_take]
    calc min 10 (sortBy ratioDesc (groupedRatios rows y)).length
        ≤ (sortBy ratioDesc (groupedRatios rows y)).length :=
          min_le_right _ _
      _ = (((companiesY rows y).filterMap
            (fun r => r.parent_company)).dedup).length := by
          rw [length_sortBy, groupedRatios, List.length_map, length_sortBy]
  · have hasym : ∀ a b : String × ℚ,
        ratioDesc a b = true → ratioDesc b a = false := by
      intro a b hab
      rw [ratioDesc] at hab ⊢
      rw [decide_eq_true_iff] at hab
      exact decide_eq_false (not_lt_of_gt hab)
    have htrans : ∀ a b c : String × ℚ, ratioDesc b a = false →
        ratioDesc c b = false → ratioDesc c a = false := by
      intro a b c h1 h2
      rw [ratioDesc] at h1 h2 ⊢
      rw [decide_eq_false_iff_not, not_lt] at h1 h2
      exact decide_eq_false (not_lt.mpr (h2.trans h1))
    have hp := pairwise_sortBy ratioDesc hasym htrans (groupedRatios rows y)
    have hp2 := hp.sublist (List.take_sublist 10 _)
    refine hp2.imp ?_
    intro a b hab
    rw [ratioDesc, decide_eq_false_iff_not, not_lt] at hab
    exact hab

/-- C8 counterexample: with `rowsC8` and selected year 2020, company "X"
is offered by the selector although no company row of year 2020 carries
it — the selector is built from all years, not the selected one. -/
theorem c8_company_options_cex :
    ¬ ("X" ∈ parentCompanyOptions rowsC8
        ↔ ("X" = "All"
            ∨ ∃ r ∈ companiesY rowsC8 2020,
                r.parent_company = some "X")) := by
  decide

/-- C8 (amended): the selector offers exactly the sentinel "All" together
with the distinct non-null parent companies among the company rows of all
years, independently of the selected year. -/
theorem c8_company_options (rows : List Record) (s : String) :
    s ∈ parentCompanyOptions rows
      ↔ (s = "All" ∨ ∃ r ∈ companiesOf rows, r.parent_company = some s) := by
  rw [parentCompanyOptions]
  constructor
  · intro hs
    rcases List.mem_cons.mp hs with h | h
    · exact Or.inl h
    · right
      have h2 := (mem_sortBy strLt s _).mp h
      have h3 := List.mem_dedup.mp h2
      rcases List.mem_filterMap.mp h3 with ⟨r, hr, hrp⟩
      exact ⟨r, hr, hrp⟩
  · rintro (rfl | ⟨r, hr, hrp⟩)
    · exact List.mem_cons_self _ _
    · exact List.mem_cons_of_mem _ ((mem_sortBy strLt s _).mpr
        (List.mem_dedup.mpr (List.mem_filterMap.mpr ⟨r, hr, hrp⟩)))

/-- C9: every query operation is a pure function of the classified views
and the filter selection: running any sequence of operations returns, for
each operation, the result determined by the initial classified views, and
leaves the classified table and its two projections unchanged. -/
theorem c9_queries_pure_and_order_independent (st : SessionState)
    (ops : List QueryOp) :
    (runOps st ops).1 = ops.map (pureResult st.totalsV st.companiesV) ∧
    (runOps st ops).2.df = st.df ∧
    (runOps st ops).2.totalsV = st.totalsV ∧
    (runOps st ops).2.companiesV = st.companiesV := by
  induction ops generalizing st with
  | nil => exact ⟨rfl, rfl, rfl, rfl⟩
  | cons op rest ih =>
    have hdf : (applyOp st op).2.df = st.df := by
      cases op <;> simp [applyOp]
    have ht : (applyOp st op).2.totalsV = st.totalsV := by
      cases op <;> simp [applyOp]
    have hc : (applyOp st op).2.companiesV = st.companiesV := by
      cases op <;> simp [applyOp]
    have hres : (applyOp st op).1 = pureResult st.totalsV st.companiesV op := by
      cases op <;> simp [applyOp, pureResult]
    have ihs := ih (applyOp st op).2
    rw [ht, hc] at ihs
    refine ⟨?_, ?_, ?_, ?_⟩
    · simp only [runOps, List.map_cons]
      rw [hres, ihs.1]
    · simp only [runOps]
      rw [ihs.2.1, hdf]
    · simp only [runOps]
      rw [ihs.2.2.1]
    · simp only [runOps]
      rw [ihs.2.2.2]

/-- C10: every entry of the top-10 ranking names a parent company that
actually occurs (non-null) among the company rows of the selected year,
and its value is the sum of `grand_total_per_volunteer` over exactly the
rows carrying that company — rows with a null `parent_company` are part of
no group. -/
theorem c10_top10_excludes_null (rows : List Record) (y : Int)
    (p : String × ℚ) (hp : p ∈ top10 rows y) :
    (∃ r ∈ companiesY rows y, r.parent_company = some p.1) ∧
    p.2 = (((companiesY rows y).filter
        (fun r => r.parent_company == some p.1)).map
        (fun r => r.grand_total_per_volunteer)).sum := by
  rw [top10] at hp
  have hp2 := List.mem_of_mem_take hp
  have hp3 := (mem_sortBy ratioDesc p _).mp hp2
  rw [groupedRatios] at hp3
  rcases List.mem_map.mp hp3 with ⟨pc, hpc, hpeq⟩
  have hpc2 := (mem_sortBy strLt pc _).mp hpc
  have hpc3 := List.mem_dedup.mp hpc2
  rcases List.mem_filterMap.mp hpc3 with ⟨r, hr, hrp⟩
  subst hpeq
  exact ⟨⟨r, hr, hrp⟩, rfl⟩

/-- C10 witness: in the sample table the pair `("X", 4)` is ranked, "X"
occurs among the 2019 company rows, and 4 is the sum over exactly the
rows naming "X". -/
theorem c10_top10_excludes_null_witness :
    ("X", (4 : ℚ)) ∈ top10 sampleRows 2019 ∧
    ((∃ r ∈ companiesY sampleRows 2019, r.parent_company = some "X") ∧
      (4 : ℚ) = (((companiesY sampleRows 2019).filter
          (fun r => r.parent_company == some "X")).map
          (fun r => r.grand_total_per_volunteer)).sum) := by
  have hmem : ("X", (4 : ℚ)) ∈ top10 sampleRows 2019 := by
    simp [top10, groupedRatios, companiesY, companiesOf, classify, sortRecs,
      sortBy, insertBy, tagTotals, keyLt, strLt, rkey, List.dedup, ratioDesc,
      sampleRows, sampleTotalB, baseRow]
  exact ⟨hmem, c10_top10_excludes_null sampleRows 2019 ("X", 4) hmem⟩

/-- C8 witness: the amended characterisation evaluated at the concrete
table `rowsC8` and option "Y". -/
theorem c8_company_options_witness :
    "Y" ∈ parentCompanyOptions rowsC8
      ↔ ("Y" = "All"
          ∨ ∃ r ∈ companiesOf rowsC8, r.parent_company = some "Y") :=
  c8_company_options rowsC8 "Y"
